import Mathlib

/-!
# cw-croncat core: agent admission and funds ledger, shallowly embedded

Shallow embedding of the agent admission/rotation algorithm and the funds
ledger of the cw-croncat contract, translated from
`contracts/cw-croncat/src/helpers.rs` (`get_agent_status`,
`agents_to_let_in`, `has_cw_coins`) and
`contracts/cw-croncat/src/owner.rs` (`update_settings`, `move_balances`),
with message types from `packages/cw-croncat-core/src/msg.rs`.

Machine integers (`u64`, `u16`, `Uint128`) are embedded as `Nat`; where the
Rust code can wrap or panic (unchecked `u64` multiplication, subtraction
underflow, division by zero, out-of-bounds indexing) the embedding makes the
behaviour explicit, with panics modelled as a distinguished error value.
-/

namespace CwCroncat

/-- Account addresses (`cosmwasm_std::Addr`) are opaque strings. -/
abbrev Addr := String

/-- `cosmwasm_std::Coin`: a denomination plus a `Uint128` amount. -/
structure Coin where
  denom : String
  amount : Nat
  deriving Repr, DecidableEq

/-- `cw20::Cw20CoinVerified`: a token-contract address plus an amount. -/
structure Cw20CoinVerified where
  address : Addr
  amount : Nat
  deriving Repr, DecidableEq

/-- `cw_croncat_core::types::GenericBalance`: native coins plus cw20 token
balances. -/
structure GenericBalance where
  native : List Coin
  cw20 : List Cw20CoinVerified
  deriving Repr, DecidableEq

/-- `cw20::Balance`: a requested movement, either a list of native coins or a
single cw20 token amount. -/
inductive Balance where
  | Native (coins : List Coin)
  | Cw20 (token : Cw20CoinVerified)
  deriving Repr, DecidableEq

/-- `cw_croncat_core::types::AgentStatus`. -/
inductive AgentStatus where
  | Active
  | Pending
  | Nominated
  deriving Repr, DecidableEq

/-- The `ContractError` variants reachable from the embedded functions
(`Unauthorized`, `AgentUnregistered`, `NotEnoughFunds`,
`CustomError { val }`), plus `panic`, which models a Rust panic / VM abort
(out-of-bounds indexing, arithmetic overflow or division by zero); a panic
aborts the call and is distinct from every `ContractError` the contract can
return. -/
inductive ContractError where
  | unauthorized
  | agentUnregistered
  | notEnoughFunds
  | customError (val : String)
  | panic (msg : String)
  deriving Repr, DecidableEq

/-- `Config` as stored by the contract: the fields are assembled from their
uses in `owner.rs` (`query_config`, `query_balances`, `update_settings`) and
`helpers.rs` (`get_agent_status`). -/
structure Config where
  paused : Bool
  owner_id : Addr
  min_tasks_per_agent : Nat
  agent_active_index : Nat
  agents_eject_threshold : Nat
  agent_fee : Coin
  gas_price : Nat
  proxy_callback_gas : Nat
  slot_granularity : Nat
  native_denom : String
  available_balance : GenericBalance
  staked_balance : GenericBalance
  cw20_whitelist : List Addr
  agent_nomination_duration : Nat
  deriving Repr, DecidableEq

/-- `cw_croncat_core::msg::UpdateSettings`: the sparse settings patch, every
field optional. -/
structure UpdateSettings where
  owner_id : Option Addr
  slot_granularity : Option Nat
  paused : Option Bool
  agent_fee : Option Coin
  gas_price : Option Nat
  proxy_callback_gas : Option Nat
  min_tasks_per_agent : Option Nat
  agents_eject_threshold : Option Nat
  deriving Repr, DecidableEq

/-- `cosmwasm_std::has_coins` (external collaborator, modelled from its
documented behaviour): find the first entry of `balance` with the required
denomination and compare amounts; absent denomination means insufficient. -/
def hasCoins (balance : List Coin) (required : Coin) : Bool :=
  match balance.find? (fun c => c.denom == required.denom) with
  | some c => required.amount ≤ c.amount
  | none => false

/-- `has_cw_coins` from `helpers.rs`: true iff the list of cw20 coins has at
least the required amount at the required token address. -/
def hasCwCoins (coins : List Cw20CoinVerified) (required : Cw20CoinVerified) : Bool :=
  match coins.find? (fun c => c.address == required.address) with
  | some m => required.amount ≤ m.amount
  | none => false

/-- Modelled from the spec: the body of `GenericBalances::minus_tokens` for a
single native coin (the implementation lives in
`cw_croncat_core::types`, not under `src/`; only the trait declaration is).
Per the spec's `subtractNative`, an entry whose current amount is less than
the requested subtraction fails the operation (`InsufficientFunds`,
returned as `none`); otherwise the matching entry is decremented. -/
def subCoin : List Coin → Coin → Option (List Coin)
  | [], c => if c.amount = 0 then some [] else none
  | e :: rest, c =>
    if e.denom == c.denom then
      if c.amount ≤ e.amount then
        some ({ denom := e.denom, amount := e.amount - c.amount } :: rest)
      else none
    else (subCoin rest c).map (e :: ·)

/-- Modelled from the spec: `GenericBalances::minus_tokens` (implementation
not under `src/`). Subtract every requested native coin; the whole operation
fails (`none`) if any entry's current amount is less than the requested
subtraction, and commits atomically otherwise. -/
def GenericBalance.minus_tokens (g : GenericBalance) (cs : List Coin) : Option GenericBalance :=
  (cs.foldlM subCoin g.native).map (fun n => { g with native := n })

/-- Modelled from the spec: the cw20 analogue of `subCoin` for
`GenericBalances::minus_cw20tokens` (implementation not under `src/`). -/
def subCw20 : List Cw20CoinVerified → Cw20CoinVerified → Option (List Cw20CoinVerified)
  | [], t => if t.amount = 0 then some [] else none
  | e :: rest, t =>
    if e.address == t.address then
      if t.amount ≤ e.amount then
        some ({ address := e.address, amount := e.amount - t.amount } :: rest)
      else none
    else (subCw20 rest t).map (e :: ·)

/-- Modelled from the spec: `GenericBalances::minus_cw20tokens`
(implementation not under `src/`): subtract one cw20 token amount, failing
(`none`) when the current amount is less than the requested subtraction. -/
def GenericBalance.minus_cw20tokens (g : GenericBalance) (t : Cw20CoinVerified) :
    Option GenericBalance :=
  (subCw20 g.cw20 t).map (fun l => { g with cw20 := l })

/-- `agents_to_let_in` from `helpers.rs`. `num_active_agents * max_tasks` is
`u64` multiplication (reduced mod `2^64`); when the task total exceeds the
covered count the backlog is divided by `max_tasks`, and a zero
`max_tasks` there makes the Rust `%`/`/` panic, modelled as `none`. -/
def agentsToLetIn (maxTasks numActiveAgents totalTasks : Nat) : Option Nat :=
  let numTasksCovered := (numActiveAgents * maxTasks) % 2 ^ 64
  if numTasksCovered < totalTasks then
    if maxTasks = 0 then none
    else
      let totalTasksNeedingAgents := totalTasks - numTasksCovered
      let remainder := if totalTasksNeedingAgents % maxTasks = 0 then 0 else 1
      some (totalTasksNeedingAgents / maxTasks + remainder)
  else some 0

/-- The storage cells `get_agent_status` reads: the config, the task total,
the active and pending agent queues, and the nomination-window start
(`agent_nomination_begin_time`, seconds). -/
structure AgentStore where
  config : Config
  taskTotal : Nat
  activeQueue : List Addr
  pendingQueue : List Addr
  nominationBeginTime : Option Nat
  deriving Repr, DecidableEq

/-- `CwCroncat::get_agent_status` from `helpers.rs`. `blockTime` is
`env.block.time.seconds()`; `active` is the caller-supplied active set (the
function also loads `agent_active_queue` from storage for the active-agent
count). Rust panics — the division by a zero `min_tasks_per_agent` inside
`agents_to_let_in`, the `u64` underflow of `block_time - begin_time`, and the
division by a zero `agent_nomination_duration` — surface as
`ContractError.panic`. -/
def getAgentStatus (store : AgentStore) (blockTime : Nat) (accountId : Addr)
    (active : List Addr) : Except ContractError AgentStatus :=
  if accountId ∈ active then .ok .Active
  else
    let c := store.config
    let pending := store.pendingQueue
    if accountId ∈ pending then
      let minTasksPerAgent := c.min_tasks_per_agent
      let totalTasks := store.taskTotal
      let numActiveAgents := store.activeQueue.length
      let agentPosition := pending.indexOf accountId
      match agentsToLetIn minTasksPerAgent numActiveAgents totalTasks with
      | none => .error (.panic "division by zero")
      | some numAgentsToAccept =>
        match store.nominationBeginTime with
        | some beginTime =>
          if 0 < numAgentsToAccept then
            if blockTime < beginTime then .error (.panic "subtraction overflow")
            else if c.agent_nomination_duration = 0 then .error (.panic "division by zero")
            else
              let timeDifference := blockTime - beginTime
              let maxIndex :=
                max (timeDifference / c.agent_nomination_duration) (numAgentsToAccept - 1)
              if agentPosition ≤ maxIndex then .ok .Nominated else .ok .Pending
          else .ok .Pending
        | none => .ok .Pending
    else .error .agentUnregistered

/-- `CwCroncat::update_settings` from `owner.rs`: the body of the
`config.update` closure. A non-owner caller is rejected; otherwise each
config field is patched from the corresponding optional payload field.
Note the source's `agents_eject_threshold` line:
`agents_eject_threshold.unwrap_or(config.min_tasks_per_agent)`. -/
def updateSettings (config : Config) (sender : Addr) (payload : UpdateSettings) :
    Except ContractError Config :=
  if sender ≠ config.owner_id then .error .unauthorized
  else
    .ok { config with
      paused := payload.paused.getD config.paused
      owner_id := payload.owner_id.getD config.owner_id
      min_tasks_per_agent := payload.min_tasks_per_agent.getD config.min_tasks_per_agent
      agents_eject_threshold := payload.agents_eject_threshold.getD config.min_tasks_per_agent
      agent_fee := payload.agent_fee.getD config.agent_fee
      gas_price := payload.gas_price.getD config.gas_price
      proxy_callback_gas := payload.proxy_callback_gas.getD config.proxy_callback_gas
      slot_granularity := payload.slot_granularity.getD config.slot_granularity }

/-- `Item::update` semantics around `updateSettings`: the new config is
persisted only when the closure succeeds; on error the stored config is left
as it was. The first component is the stored config after the call. -/
def updateSettingsStore (storage : Config) (sender : Addr) (payload : UpdateSettings) :
    Config × Except ContractError Config :=
  match updateSettings storage sender payload with
  | .error e => (storage, .error e)
  | .ok c => (c, .ok c)

/-- An outbound transfer instruction (`SubMsg`): a native `BankMsg::Send` or
a cw20 `WasmMsg::Execute` carrying a `Cw20ExecuteMsg::Transfer`. -/
inductive SubMsg where
  | bankSend (toAddress : Addr) (amount : List Coin)
  | cw20Transfer (contractAddr : Addr) (recipient : Addr) (amount : Nat)
  deriving Repr, DecidableEq

/-- The per-movement closure of `move_balances` in `owner.rs`: for a native
movement, index `bal[0]` (a Rust panic on an empty coin list), check it
against the fresh on-chain balances, then subtract the whole coin list from
the internal `available_balance`; for a cw20 movement, check the internal
cw20 bucket and subtract. A failing spec-modelled `minus_*` subtraction
surfaces as `NotEnoughFunds` (the spec's `InsufficientFunds`). -/
def processBalance (stateBalances : List Coin) (accountId : Addr)
    (avail : GenericBalance) : Balance → Except ContractError (GenericBalance × SubMsg)
  | .Native coins =>
    match coins with
    | [] => .error (.panic "index out of bounds")
    | c0 :: _ =>
      if ¬ hasCoins stateBalances c0 then .error .notEnoughFunds
      else
        match avail.minus_tokens coins with
        | none => .error .notEnoughFunds
        | some avail' => .ok (avail', .bankSend accountId coins)
  | .Cw20 token =>
    if ¬ hasCwCoins avail.cw20 token then .error .notEnoughFunds
    else
      match avail.minus_cw20tokens token with
      | none => .error .notEnoughFunds
      | some avail' =>
        .ok (avail', .cw20Transfer token.address accountId token.amount)

/-- The `balances.iter().map(..).collect::<Result<..>>()` loop of
`move_balances`: movements are processed left to right against the running
internal balance, and the first failure aborts the whole batch. -/
def processBalances (stateBalances : List Coin) (accountId : Addr)
    (avail : GenericBalance) :
    List Balance → Except ContractError (GenericBalance × List SubMsg)
  | [] => .ok (avail, [])
  | b :: rest =>
    match processBalance stateBalances accountId avail b with
    | .error e => .error e
    | .ok (avail', msg) =>
      match processBalances stateBalances accountId avail' rest with
      | .error e => .error e
      | .ok (avail'', msgs) => .ok (avail'', msg :: msgs)

/-- `CwCroncat::move_balances` from `owner.rs`. `storage` is the persisted
config; `stateBalances` is the querier's fresh on-chain balance of the
contract. The caller must be the owner and the destination the owner
(`check_account` is `config.owner_id`); the batch is validated and the draft
`available_balance` updated movement by movement, and only on full success is
the config saved and the instruction list returned. The first component is
the stored config after the call. -/
def moveBalances (storage : Config) (sender : Addr) (stateBalances : List Coin)
    (balances : List Balance) (accountId : Addr) :
    Config × Except ContractError (List SubMsg) :=
  let config := storage
  if sender ≠ config.owner_id then (storage, .error .unauthorized)
  else
    let checkAccount := config.owner_id
    if checkAccount ≠ accountId ∧ config.owner_id ≠ accountId then
      (storage, .error (.customError "Cannot move funds to this account"))
    else
      match processBalances stateBalances accountId config.available_balance balances with
      | .error e => (storage, .error e)
      | .ok (avail', msgs) => ({ config with available_balance := avail' }, .ok msgs)

/-! Concrete fixtures used to instantiate the theorems below. -/

/-- A small internal ledger: 5 `atom` and 10 `meow` native, one cw20 entry. -/
def testBalance : GenericBalance :=
  { native := [⟨"atom", 5⟩, ⟨"meow", 10⟩], cw20 := [⟨"token", 10⟩] }

/-- A concrete stored config owned by `alice`. -/
def testConfig : Config :=
  { paused := false
    owner_id := "alice"
    min_tasks_per_agent := 3
    agent_active_index := 0
    agents_eject_threshold := 600
    agent_fee := ⟨"atom", 5⟩
    gas_price := 1
    proxy_callback_gas := 3
    slot_granularity := 60
    native_denom := "atom"
    available_balance := testBalance
    staked_balance := ⟨[], []⟩
    cw20_whitelist := []
    agent_nomination_duration := 360 }

/-- The all-absent settings patch. -/
def emptyUpdate : UpdateSettings := ⟨none, none, none, none, none, none, none, none⟩

/-- A patch supplying only `min_tasks_per_agent = 0`. -/
def zeroMinTasksPatch : UpdateSettings := { emptyUpdate with min_tasks_per_agent := some 0 }

/-- The config `updateSettings testConfig "alice" zeroMinTasksPatch` produces:
`min_tasks_per_agent` becomes `0`, and `agents_eject_threshold` becomes the
prior `min_tasks_per_agent` (the source's `unwrap_or(config.min_tasks_per_agent)`). -/
def zeroMinTasksConfig : Config :=
  { testConfig with min_tasks_per_agent := 0, agents_eject_threshold := 3 }

/-- The spec's scenario store: `min_tasks_per_agent = 10`, one active agent,
25 total tasks, four pending agents, window opened at time 1000, duration
360 seconds. -/
def testAgentStore : AgentStore :=
  { config := { testConfig with min_tasks_per_agent := 10 }
    taskTotal := 25
    activeQueue := ["a1"]
    pendingQueue := ["p0", "p1", "p2", "p3"]
    nominationBeginTime := some 1000 }

/-- A fresh on-chain contract balance: 100 `atom`, no `meow`. -/
def chainBalances : List Coin := [⟨"atom", 100⟩]

/-! ## Theorems -/

/-- C2: for `min_tasks_per_agent = k > 0`, `num_active_agents = n` and
`total_tasks = t` with `n * k` not overflowing `u64`, `agents_to_let_in`
returns `0` when `t ≤ n * k`, and otherwise the integer ceiling of
`(t - n * k) / k`: the quotient plus one exactly when the remainder is
nonzero. -/
theorem agentsToLetIn_spec (k n t : Nat) (hk : 0 < k) (hov : n * k < 2 ^ 64) :
    (t ≤ n * k → agentsToLetIn k n t = some 0) ∧
    (n * k < t →
      agentsToLetIn k n t =
        some ((t - n * k) / k + if (t - n * k) % k = 0 then 0 else 1)) := by
  unfold agentsToLetIn
  rw [Nat.mod_eq_of_lt hov]
  constructor
  · intro h
    simp [Nat.not_lt.mpr h]
  · intro h
    simp [h, hk.ne']

/-- Witness for C2 at the spec's examples: backlog 5 with `k = 2` gives 3,
backlog 4 with `k = 2` gives 2. -/
theorem agentsToLetIn_spec_witness :
    agentsToLetIn 2 0 5 = some 3 ∧ agentsToLetIn 2 1 6 = some 2 := by
  constructor
  · have h := (agentsToLetIn_spec 2 0 5 (by decide) (by decide)).2 (by decide)
    simpa using h
  · have h := (agentsToLetIn_spec 2 1 6 (by decide) (by decide)).2 (by decide)
    simpa using h

/-- C9: an `updateSettings` call whose sender is not `config.owner_id` fails
with `Unauthorized` and the stored config is unchanged. -/
theorem updateSettings_unauthorized (storage : Config) (sender : Addr)
    (payload : UpdateSettings) (h : sender ≠ storage.owner_id) :
    updateSettingsStore storage sender payload = (storage, .error .unauthorized) := by
  simp [updateSettingsStore, updateSettings, h]

/-- Witness for C9: `bob` is not the owner of `testConfig`, so the call
fails with `Unauthorized` and the stored config stays `testConfig`. -/
theorem updateSettings_unauthorized_witness :
    updateSettingsStore testConfig "bob" emptyUpdate = (testConfig, .error .unauthorized) :=
  updateSettings_unauthorized testConfig "bob" emptyUpdate (by decide)

/-- C5, failing input: the owner patches `testConfig` (whose
`agents_eject_threshold` is 600 and `min_tasks_per_agent` is 3) with a payload
whose every field is absent. The claim requires `agents_eject_threshold` to
stay 600; the code stores 3, the prior `min_tasks_per_agent`, because the
source reads `agents_eject_threshold.unwrap_or(config.min_tasks_per_agent)`
(`owner.rs` lines 69–70). -/
theorem updateSettings_eject_threshold_bug :
    testConfig.agents_eject_threshold = 600 ∧
    (updateSettingsStore testConfig "alice" emptyUpdate).1.agents_eject_threshold = 3 :=
  ⟨rfl, rfl⟩

/-- C6, failing input: the owner sets `min_tasks_per_agent` to 0 through
`updateSettings`. The call is accepted and persisted — there is no
`InvalidConfiguration` rejection anywhere in `update_settings` — and the
stored zero then reaches `agents_to_let_in`, where any positive backlog
(here one active agent and five tasks) hits the `u64` division by zero
(modelled as `none`, a Rust panic). -/
theorem updateSettings_accepts_zero_min_tasks :
    updateSettingsStore testConfig "alice" zeroMinTasksPatch =
      (zeroMinTasksConfig, .ok zeroMinTasksConfig) ∧
    zeroMinTasksConfig.min_tasks_per_agent = 0 ∧
    agentsToLetIn zeroMinTasksConfig.min_tasks_per_agent 1 5 = none :=
  ⟨rfl, rfl, rfl⟩

/-- C3: when the owner moves funds to an allowed destination and the batch
fails — `processBalances` is the movement-by-movement validation loop, so its
error is exactly "some movement in the batch fails its funds check, given the
movements before it" — the whole call returns that error, no transfer
instructions are emitted, and the persisted config (hence its
`available_balance` ledger) is unchanged. -/
theorem moveBalances_batch_atomic (storage : Config) (sender accountId : Addr)
    (stateBalances : List Coin) (balances : List Balance) (e : ContractError)
    (hs : sender = storage.owner_id) (ha : accountId = storage.owner_id)
    (he : processBalances stateBalances accountId storage.available_balance balances =
      .error e) :
    moveBalances storage sender stateBalances balances accountId =
      (storage, .error e) := by
  subst hs; subst ha
  simp [moveBalances, he]

/-- Witness for C3: a batch whose first movement (2 `atom`) passes every
check and whose second movement (200 `atom`) fails the on-chain funds check
produces the error, zero instructions, and an unchanged stored config. -/
theorem moveBalances_batch_atomic_witness :
    moveBalances testConfig "alice" chainBalances
        [.Native [⟨"atom", 2⟩], .Native [⟨"atom", 200⟩]] "alice" =
      (testConfig, .error .notEnoughFunds) :=
  moveBalances_batch_atomic testConfig "alice" "alice" chainBalances
    [.Native [⟨"atom", 2⟩], .Native [⟨"atom", 200⟩]] .notEnoughFunds rfl rfl rfl

/-- C4: a native movement headed by a coin the on-chain contract balance
covers, but whose coin list exceeds the internal `available_balance` bucket
(the spec-modelled `minus_tokens` fails), makes the whole call fail with the
`InsufficientFunds`-class error (`NotEnoughFunds`): no instruction is emitted
and the persisted ledger is unchanged. -/
theorem moveBalances_internal_cap (storage : Config) (sender accountId : Addr)
    (stateBalances : List Coin) (c : Coin) (cs : List Coin) (rest : List Balance)
    (hs : sender = storage.owner_id) (ha : accountId = storage.owner_id)
    (hchain : hasCoins stateBalances c = true)
    (hledger : storage.available_balance.minus_tokens (c :: cs) = none) :
    moveBalances storage sender stateBalances (.Native (c :: cs) :: rest) accountId =
      (storage, .error .notEnoughFunds) := by
  apply moveBalances_batch_atomic storage sender accountId stateBalances _ _ hs ha
  simp [processBalances, processBalance, hchain, hledger]

/-- Witness for C4: moving 50 `atom` when the contract's on-chain balance
holds 100 `atom` but the internal `available_balance` holds only 5 `atom`
fails with `NotEnoughFunds` and leaves the stored config unchanged. -/
theorem moveBalances_internal_cap_witness :
    hasCoins chainBalances ⟨"atom", 50⟩ = true ∧
    moveBalances testConfig "alice" chainBalances [.Native [⟨"atom", 50⟩]] "alice" =
      (testConfig, .error .notEnoughFunds) :=
  ⟨rfl, moveBalances_internal_cap testConfig "alice" "alice" chainBalances
    ⟨"atom", 50⟩ [] [] rfl rfl rfl rfl⟩

/-- C10: the native arm of `move_balances` indexes `bal[0]` unconditionally,
so a native movement with an empty coin list panics (first conjunct); and
only that first coin is compared against the on-chain balance: a two-coin
native movement succeeds for every second coin the internal ledger covers,
with no on-chain hypothesis about that second coin (second conjunct). -/
theorem moveBalances_native_first_coin (storage : Config) (sender accountId : Addr)
    (stateBalances : List Coin)
    (hs : sender = storage.owner_id) (ha : accountId = storage.owner_id) :
    (∀ rest, moveBalances storage sender stateBalances (.Native [] :: rest) accountId =
      (storage, .error (.panic "index out of bounds"))) ∧
    (∀ (c1 c2 : Coin) (avail' : GenericBalance),
      hasCoins stateBalances c1 = true →
      storage.available_balance.minus_tokens [c1, c2] = some avail' →
      moveBalances storage sender stateBalances [.Native [c1, c2]] accountId =
        ({ storage with available_balance := avail' },
          .ok [.bankSend accountId [c1, c2]])) := by
  subst hs; subst ha
  constructor
  · intro rest
    simp [moveBalances, processBalances, processBalance]
  · intro c1 c2 avail' hchain hledger
    simp [moveBalances, processBalances, processBalance, hchain, hledger]

/-- Witness for C10: the empty-coin-list movement panics; and the movement
`[1 atom, 7 meow]` succeeds although the on-chain balance has no `meow` at
all (`hasCoins chainBalances ⟨meow, 7⟩ = false`): the 7 `meow` are deducted
from the internal ledger with no on-chain sufficiency check. -/
theorem moveBalances_native_first_coin_witness :
    moveBalances testConfig "alice" chainBalances [.Native []] "alice" =
      (testConfig, .error (.panic "index out of bounds")) ∧
    hasCoins chainBalances ⟨"meow", 7⟩ = false ∧
    moveBalances testConfig "alice" chainBalances
        [.Native [⟨"atom", 1⟩, ⟨"meow", 7⟩]] "alice" =
      ({ testConfig with available_balance :=
          { testBalance with native := [⟨"atom", 4⟩, ⟨"meow", 3⟩] } },
        .ok [.bankSend "alice" [⟨"atom", 1⟩, ⟨"meow", 7⟩]]) :=
  ⟨(moveBalances_native_first_coin testConfig "alice" "alice" chainBalances rfl rfl).1 [],
   rfl,
   (moveBalances_native_first_coin testConfig "alice" "alice" chainBalances rfl rfl).2
     ⟨"atom", 1⟩ ⟨"meow", 7⟩ _ rfl rfl⟩

/-- C1: for an agent at zero-based position `p` of the pending queue (and not
in the active set), with `slotsToOpen = agentsToLetIn …` well defined and a
positive nomination duration: when the window is open (`some b`, with
`b ≤ blockTime` so the `u64` elapsed time is well defined) and
`slotsToOpen > 0`, the status is `Nominated` exactly when
`p ≤ max (elapsed / duration) (slotsToOpen - 1)` and `Pending` otherwise;
when `slotsToOpen = 0` or no window is open, the status is `Pending`. -/
theorem getAgentStatus_pending_spec (store : AgentStore) (blockTime : Nat)
    (accountId : Addr) (active : List Addr) (p slots : Nat)
    (hact : accountId ∉ active)
    (hpend : accountId ∈ store.pendingQueue)
    (hpos : store.pendingQueue.indexOf accountId = p)
    (hdur : 0 < store.config.agent_nomination_duration)
    (hslots : agentsToLetIn store.config.min_tasks_per_agent
      store.activeQueue.length store.taskTotal = some slots) :
    (∀ b, store.nominationBeginTime = some b → b ≤ blockTime → 0 < slots →
      getAgentStatus store blockTime accountId active =
        .ok (if p ≤ max ((blockTime - b) / store.config.agent_nomination_duration)
              (slots - 1)
          then .Nominated else .Pending)) ∧
    ((slots = 0 ∨ store.nominationBeginTime = none) →
      getAgentStatus store blockTime accountId active = .ok .Pending) := by
  constructor
  · intro b hb hble hpos0
    simp only [getAgentStatus, if_neg hact, if_pos hpend, hslots, hb, hpos,
      if_pos hpos0, if_neg (Nat.not_lt.mpr hble), if_neg hdur.ne']
    split <;> simp_all
  · intro h
    rcases h with h | h
    · subst h
      simp only [getAgentStatus, if_neg hact, if_pos hpend, hslots]
      cases store.nominationBeginTime <;> simp
    · simp only [getAgentStatus, if_neg hact, if_pos hpend, hslots, h]

/-- Witness for C1 at the spec's scenario (`slotsToOpen = 2`, window open at
1000, duration 360): at elapsed 0 position 1 is admitted by the
`slotsToOpen - 1` term, position 2 is still `Pending`, and at elapsed 720
position 2 is admitted by the elapsed-time term. -/
theorem getAgentStatus_pending_spec_witness :
    getAgentStatus testAgentStore 1000 "p1" ["a1"] = .ok .Nominated ∧
    getAgentStatus testAgentStore 1000 "p2" ["a1"] = .ok .Pending ∧
    getAgentStatus testAgentStore 1720 "p2" ["a1"] = .ok .Nominated := by
  refine ⟨?_, ?_, ?_⟩
  · have h := (getAgentStatus_pending_spec testAgentStore 1000 "p1" ["a1"] 1 2
      (by decide) (by decide) (by decide) (by decide) (by decide)).1
      1000 rfl (by decide) (by decide)
    simpa using h
  · have h := (getAgentStatus_pending_spec testAgentStore 1000 "p2" ["a1"] 2 2
      (by decide) (by decide) (by decide) (by decide) (by decide)).1
      1000 rfl (by decide) (by decide)
    simpa using h
  · have h := (getAgentStatus_pending_spec testAgentStore 1720 "p2" ["a1"] 2 2
      (by decide) (by decide) (by decide) (by decide) (by decide)).1
      1000 rfl (by decide) (by decide)
    simpa using h

/-- C7: with the store, queues and config fixed, for block times
`t1 ≤ t2` both at or after the window start, an agent `Nominated` at `t1` is
still `Nominated` at `t2`: elapsed time only grows, so the admitted index
`max (elapsed / duration) (slots - 1)` never shrinks. -/
theorem getAgentStatus_time_monotone (store : AgentStore) (accountId : Addr)
    (active : List Addr) (t1 t2 : Nat) (h12 : t1 ≤ t2)
    (hb : ∀ b, store.nominationBeginTime = some b → b ≤ t1)
    (h1 : getAgentStatus store t1 accountId active = .ok .Nominated) :
    getAgentStatus store t2 accountId active = .ok .Nominated := by
  unfold getAgentStatus at h1 ⊢
  by_cases hact : accountId ∈ active
  · simp [hact] at h1
  by_cases hpend : accountId ∈ store.pendingQueue
  case neg => simp [hact, hpend] at h1
  simp only [if_neg hact, if_pos hpend] at h1 ⊢
  split at h1
  · exact absurd h1 (by simp)
  · rename_i slots hlet
    split at h1
    · rename_i b hbt
      by_cases hpos0 : 0 < slots
      case neg => rw [if_neg hpos0] at h1; exact absurd h1 (by simp)
      rw [if_pos hpos0] at h1 ⊢
      have hble1 : b ≤ t1 := hb b hbt
      rw [if_neg (Nat.not_lt.mpr hble1)] at h1
      rw [if_neg (Nat.not_lt.mpr (hble1.trans h12))]
      by_cases hdur : store.config.agent_nomination_duration = 0
      · rw [if_pos hdur] at h1; exact absurd h1 (by simp)
      rw [if_neg hdur] at h1 ⊢
      have hmax : max ((t1 - b) / store.config.agent_nomination_duration) (slots - 1) ≤
          max ((t2 - b) / store.config.agent_nomination_duration) (slots - 1) :=
        max_le_max (Nat.div_le_div_right (Nat.sub_le_sub_right h12 b)) le_rfl
      by_cases hle : store.pendingQueue.indexOf accountId ≤
          max ((t1 - b) / store.config.agent_nomination_duration) (slots - 1)
      · rw [if_pos (hle.trans hmax)]
      · rw [if_neg hle] at h1; exact absurd h1 (by simp)
    · exact absurd h1 (by simp)

/-- Witness for C7: `p0` is `Nominated` at the window-open instant 1000 and,
with everything else fixed, still `Nominated` at the later time 5000. -/
theorem getAgentStatus_time_monotone_witness :
    getAgentStatus testAgentStore 5000 "p0" ["a1"] = .ok .Nominated :=
  getAgentStatus_time_monotone testAgentStore "p0" ["a1"] 1000 5000 (by decide)
    (by intro b hbt
        have : some (1000 : Nat) = some b := hbt
        simpa using (Option.some.inj this).symm.le)
    rfl

/-- C8: `getAgentStatus` answers `Active` for any account in the supplied
active set, whatever the config, time or pending queue; and it fails with
`AgentUnregistered` exactly when the account is in neither the active set nor
the pending queue. -/
theorem getAgentStatus_active_and_unregistered (store : AgentStore) (blockTime : Nat)
    (accountId : Addr) (active : List Addr) :
    (accountId ∈ active → getAgentStatus store blockTime accountId active = .ok .Active) ∧
    (getAgentStatus store blockTime accountId active = .error .agentUnregistered ↔
      accountId ∉ active ∧ accountId ∉ store.pendingQueue) := by
  constructor
  · intro hact
    simp [getAgentStatus, hact]
  · constructor
    · intro h
      by_cases hact : accountId ∈ active
      · simp [getAgentStatus, hact] at h
      by_cases hpend : accountId ∈ store.pendingQueue
      · exfalso
        simp only [getAgentStatus, if_neg hact, if_pos hpend] at h
        split at h
        · simp at h
        · split at h
          · split at h
            · split at h
              · simp at h
              · split at h
                · simp at h
                · split at h <;> simp at h
            · simp at h
          · simp at h
      · exact ⟨hact, hpend⟩
    · rintro ⟨hact, hpend⟩
      simp [getAgentStatus, hact, hpend]

/-- Witness for C8: `a1` (in the active set) is `Active`; `zzz` (in neither
queue) gets `AgentUnregistered`. -/
theorem getAgentStatus_active_and_unregistered_witness :
    getAgentStatus testAgentStore 1000 "a1" ["a1"] = .ok .Active ∧
    getAgentStatus testAgentStore 1000 "zzz" ["a1"] = .error .agentUnregistered :=
  ⟨(getAgentStatus_active_and_unregistered testAgentStore 1000 "a1" ["a1"]).1
      (by decide),
   (getAgentStatus_active_and_unregistered testAgentStore 1000 "zzz" ["a1"]).2.mpr
      ⟨by decide, by decide⟩⟩

end CwCroncat
